import Mathlib

/-!
Verification of the CNN extractor module (`youtube_dl/extractor/cnn.py`).

The file shallowly embeds the module: the Python regular expressions are
embedded as terms of a tiny regex language `RE` together with a backtracking
matcher `matchRE` that follows Python `re` semantics (ordered alternation,
lazy/greedy one-or-more over character classes, greedy star, optional,
single-character lookahead, numbered capture groups, `$`), and the three
`_real_extract` methods become Lean functions over an XML-element type, with
`Option` modelling raised exceptions (`KeyError`, `AttributeError`,
pattern-not-found, `int()` failures).
-/

/-- Character classes occurring in the module's regexes: `.` (any char except
newline), `[0-9]`, a negated single character class (`[^/]`, `[^']`), and
`\s`. -/
inductive CharCls where
  | dot
  | digit
  | notCh (c : Char)
  | wsp
deriving DecidableEq

/-- Python whitespace (`\s`, ASCII range): space, tab, newline, carriage
return, vertical tab, form feed. -/
def pyWs (c : Char) : Bool :=
  c == ' ' || c == '\t' || c == '\n' || c == '\r' || c == '\x0b' || c == '\x0c'

/-- Membership in a character class. -/
def clsMem : CharCls → Char → Bool
  | CharCls.dot, c => c != '\n'
  | CharCls.digit, c => c.isDigit
  | CharCls.notCh x, c => c != x
  | CharCls.wsp, c => pyWs c

/-- The regex fragment language used by the module: literals, lazy/greedy
one-or-more over a class (`.+?`, `[^/]+?`, `[0-9]+`, `[^']+`), greedy star
over a class (`\s*`), ordered alternation, greedy option (`?`), sequencing,
single-character lookahead (`(?=&)`), numbered groups, and `$`. -/
inductive RE where
  | lit (s : List Char)
  | plusLzy (c : CharCls)
  | plusGdy (c : CharCls)
  | star (c : CharCls)
  | alt (a b : RE)
  | opt (r : RE)
  | seq (a b : RE)
  | look (ch : Char)
  | grp (n : Nat) (r : RE)
  | eos

/-- Captured groups of a match: group number paired with the captured
characters; a later (more recent) entry for the same group shadows earlier
ones, as in Python where a group records its last participation. -/
abbrev Caps := List (Nat × List Char)

/-- Record a group capture. -/
def capsInsert (n : Nat) (v : List Char) (caps : Caps) : Caps :=
  (n, v) :: caps

/-- `mobj.group(n)`: the most recent capture of group `n`, if any. -/
def capsLookup (n : Nat) : Caps → Option (List Char)
  | [] => none
  | (m, v) :: rest => if m = n then some v else capsLookup n rest

/-- Ordered choice: the first alternative that yields a match wins, as in
Python's backtracking engine. -/
def firstSome (a b : Option Caps) : Option Caps :=
  match a with
  | some r => some r
  | none => b

/-- Match a literal character sequence at the head of the input, returning
the rest of the input. -/
def litMatch : List Char → List Char → Option (List Char)
  | [], cs => some cs
  | _ :: _, [] => none
  | p :: ps, c :: cs => if p = c then litMatch ps cs else none

/-- Continuations of the matcher. -/
abbrev Knt := List Char → Caps → Option Caps

/-- Lazy one-or-more over a class: after each mandatory character, prefer
handing over to the continuation before consuming further. -/
def plusLazy (c : CharCls) : List Char → Caps → Knt → Option Caps
  | [], _, _ => none
  | ch :: cs, caps, k =>
      if clsMem c ch then firstSome (k cs caps) (plusLazy c cs caps k) else none

/-- Greedy one-or-more over a class: after each mandatory character, prefer
consuming further before handing over to the continuation. -/
def plusGreedy (c : CharCls) : List Char → Caps → Knt → Option Caps
  | [], _, _ => none
  | ch :: cs, caps, k =>
      if clsMem c ch then firstSome (plusGreedy c cs caps k) (k cs caps) else none

/-- Greedy zero-or-more over a class. -/
def starGreedy (c : CharCls) : List Char → Caps → Knt → Option Caps
  | [], caps, k => k [] caps
  | ch :: cs, caps, k =>
      if clsMem c ch then firstSome (starGreedy c cs caps k) (k (ch :: cs) caps)
      else k (ch :: cs) caps

/-- Backtracking matcher in continuation-passing style, following Python
`re` preference order.  `matchRE r cs caps k` tries to match `r` at the head
of `cs` and passes the remaining input and updated captures to `k`. -/
def matchRE : RE → List Char → Caps → Knt → Option Caps
  | RE.lit s, cs, caps, k =>
      match litMatch s cs with
      | some cs2 => k cs2 caps
      | none => none
  | RE.plusLzy c, cs, caps, k => plusLazy c cs caps k
  | RE.plusGdy c, cs, caps, k => plusGreedy c cs caps k
  | RE.star c, cs, caps, k => starGreedy c cs caps k
  | RE.alt a b, cs, caps, k => firstSome (matchRE a cs caps k) (matchRE b cs caps k)
  | RE.opt r, cs, caps, k => firstSome (matchRE r cs caps k) (k cs caps)
  | RE.seq a b, cs, caps, k => matchRE a cs caps (fun cs2 caps2 => matchRE b cs2 caps2 k)
  | RE.look ch, cs, caps, k =>
      match cs with
      | [] => none
      | c :: _ => if c = ch then k cs caps else none
  | RE.grp n r, cs, caps, k =>
      matchRE r cs caps
        (fun cs2 caps2 => k cs2 (capsInsert n (cs.take (cs.length - cs2.length)) caps2))
  | RE.eos, cs, caps, k => if cs = [] ∨ cs = ['\n'] then k cs caps else none

/-- `re.match`: anchored at the start of the input (the whole input need not
be consumed). -/
def pyMatch (r : RE) (cs : List Char) : Option Caps :=
  matchRE r cs [] (fun _ caps => some caps)

/-- `re.search`: try an anchored match at each successive start position,
leftmost match wins. -/
def pySearch (r : RE) : List Char → Option Caps
  | [] => pyMatch r []
  | c :: cs => firstSome (pyMatch r (c :: cs)) (pySearch r cs)

/-- `mobj.group(n)` as a string. -/
def groupStr (caps : Caps) (n : Nat) : Option String :=
  (capsLookup n caps).map (fun l => String.mk l)

/-- The apostrophe character (used by the article regex `[^']`). -/
def squote : Char := Char.ofNat 39

/-- Python `str.strip()`: drop whitespace from both ends. -/
def pyStrip (s : String) : String :=
  String.mk (((s.data.dropWhile pyWs).reverse.dropWhile pyWs).reverse)

/-- Numeric value of a digit string. -/
def digitsToNat (l : List Char) : Nat :=
  l.foldl (fun a c => a * 10 + (c.toNat - 48)) 0

/-- Python `int()` applied to a list of characters: optional surrounding
whitespace, optional sign, then at least one digit; `none` models the raised
`ValueError` otherwise. -/
def pyIntL (l : List Char) : Option Int :=
  let t := ((l.dropWhile pyWs).reverse.dropWhile pyWs).reverse
  match t with
  | '-' :: ds =>
      if !ds.isEmpty && ds.all Char.isDigit then some (-(digitsToNat ds : Int)) else none
  | '+' :: ds =>
      if !ds.isEmpty && ds.all Char.isDigit then some ((digitsToNat ds : Int)) else none
  | ds =>
      if !ds.isEmpty && ds.all Char.isDigit then some ((digitsToNat ds : Int)) else none

/-- Python `int()` on a string. -/
def pyInt (s : String) : Option Int := pyIntL s.data

/-- Modelled from the spec: the integer-or-none coercion helper
(`utils.int_or_none`, not under `src/`): `None` input gives `None`, a
malformed numeric field is tolerated by yielding `None` instead of failing. -/
def int_or_none (v : Option String) : Option Int := v.bind pyInt

/-- Digit-string parser used by the modelled duration parser. -/
def natDigits (l : List Char) : Option Nat :=
  if !l.isEmpty && l.all Char.isDigit then some (digitsToNat l) else none

/-- Split a character list at colons. -/
def splitCols : List Char → List (List Char)
  | [] => [[]]
  | c :: cs =>
      match splitCols cs with
      | [] => [[]]
      | g :: gs => if c = ':' then [] :: g :: gs else (c :: g) :: gs

/-- Modelled from the spec: the generic duration-string parser
(`utils.parse_duration`, not under `src/`): seconds, `mm:ss`, or `hh:mm:ss`;
`None` input or unparsable text gives `None`. -/
def parse_duration (v : Option String) : Option Nat :=
  v.bind fun s =>
    match splitCols (pyStrip s).data with
    | [a] => natDigits a
    | [a, b] => do
        let m ← natDigits a
        let sec ← natDigits b
        some (m * 60 + sec)
    | [a, b, c] => do
        let h ← natDigits a
        let m ← natDigits b
        let sec ← natDigits c
        some (h * 3600 + m * 60 + sec)
    | _ => none

/-- An XML element as produced by `xml.etree.ElementTree`: tag, attributes,
optional text, children. -/
inductive XmlElem where
  | mk (tag : String) (attrib : List (String × String)) (text : Option String)
      (children : List XmlElem)

/-- Tag of an element. -/
def XmlElem.tag : XmlElem → String
  | XmlElem.mk t _ _ _ => t

/-- Attribute list of an element. -/
def XmlElem.attrib : XmlElem → List (String × String)
  | XmlElem.mk _ a _ _ => a

/-- Text of an element (`None` when the element is empty). -/
def XmlElem.text : XmlElem → Option String
  | XmlElem.mk _ _ t _ => t

/-- Children of an element. -/
def XmlElem.children : XmlElem → List XmlElem
  | XmlElem.mk _ _ _ c => c

/-- Association-list lookup. -/
def assocLookup : List (String × String) → String → Option String
  | [], _ => none
  | (k, v) :: rest, key => if k = key then some v else assocLookup rest key

/-- Dictionary lookup in an attribute list; `none` models both
`attrib.get(k)` returning `None` and the `KeyError` of `attrib[k]`. -/
def attrLookup (e : XmlElem) (key : String) : Option String :=
  assocLookup e.attrib key

/-- `elem.find(tag)`: first child with the given tag, if any. -/
def findChild (e : XmlElem) (tag : String) : Option XmlElem :=
  e.children.find? (fun c => c.tag == tag)

/-- `elem.findall('t1/t2')`: all `t2` children of all `t1` children, in
document order. -/
def findAll2 (e : XmlElem) (t1 t2 : String) : List XmlElem :=
  (e.children.filter (fun c => c.tag == t1)).flatMap
    (fun c => c.children.filter (fun g => g.tag == t2))

/-- The fixed part of `CNNIE._VALID_URL` before the `path` group:
`https?://(?:(?:edition|www)\.)?cnn\.com/video/(?:data/.+?|\?)/`. -/
def cnnPreRE : RE :=
  RE.seq (RE.lit ['h','t','t','p'])
  (RE.seq (RE.opt (RE.lit ['s']))
  (RE.seq (RE.lit [':','/','/'])
  (RE.seq (RE.opt (RE.seq (RE.alt (RE.lit ['e','d','i','t','i','o','n'])
                                  (RE.lit ['w','w','w']))
                          (RE.lit ['.'])))
  (RE.seq (RE.lit ['c','n','n','.','c','o','m','/','v','i','d','e','o','/'])
  (RE.seq (RE.alt (RE.seq (RE.lit ['d','a','t','a','/']) (RE.plusLzy CharCls.dot))
                  (RE.lit ['?']))
          (RE.lit ['/']))))))

/-- The tail of the `path` group: `(?:\.(?:cnn|hln|ktvk)(?:-ap)?|(?=&))`. -/
def cnnSuffixRE : RE :=
  RE.alt (RE.seq (RE.lit ['.'])
                 (RE.seq (RE.alt (RE.lit ['c','n','n'])
                                 (RE.alt (RE.lit ['h','l','n']) (RE.lit ['k','t','v','k'])))
                         (RE.opt (RE.lit ['-','a','p']))))
         (RE.look '&')

/-- The `title` group: `(?P<title>[^/]+?)`. -/
def cnnTitleRE : RE := RE.grp 2 (RE.plusLzy (CharCls.notCh '/'))

/-- The `path` group: `(?P<path>.+?/(?P<title>[^/]+?)(?:\.(?:cnn|hln|ktvk)(?:-ap)?|(?=&)))`;
group 1 is `path`, group 2 is `title`. -/
def cnnPathRE : RE :=
  RE.grp 1 (RE.seq (RE.plusLzy CharCls.dot)
                   (RE.seq (RE.lit ['/']) (RE.seq cnnTitleRE cnnSuffixRE)))

/-- `CNNIE._VALID_URL` (cnn.py lines 14-15). -/
def CNNIE_VALID_URL : RE := RE.seq cnnPreRE cnnPathRE

/-- The characters of `http://cnn.com/video/?/`, a concrete instance of the
fixed part of the URL pattern (scheme, host, `/video/`, the `\?` branch of
the alternation, and the slash before the `path` group). -/
def cnnPre : List Char :=
  ['h', 't', 't', 'p', ':', '/', '/', 'c', 'n', 'n', '.', 'c', 'o', 'm', '/',
   'v', 'i', 'd', 'e', 'o', '/', '?', '/']

/-- `rex` (cnn.py lines 61-64):
`(?P<width>[0-9]+)x(?P<height>[0-9]+)(?:_(?P<bitrate>[0-9]+)k)?`;
group 1 is `width`, group 2 is `height`, group 3 is `bitrate`. -/
def rexRE : RE :=
  RE.seq (RE.grp 1 (RE.plusGdy CharCls.digit))
  (RE.seq (RE.lit ['x'])
  (RE.seq (RE.grp 2 (RE.plusGdy CharCls.digit))
          (RE.opt (RE.seq (RE.lit ['_'])
                          (RE.seq (RE.grp 3 (RE.plusGdy CharCls.digit)) (RE.lit ['k']))))))

/-- `ios_(audio|[0-9]+)$` (cnn.py line 84). -/
def iosRE : RE :=
  RE.seq (RE.lit ['i','o','s','_'])
         (RE.seq (RE.grp 1 (RE.alt (RE.lit ['a','u','d','i','o']) (RE.plusGdy CharCls.digit)))
                 RE.eos)

/-- The literal head of the blog regex, `data-url="`. -/
def dataUrlLit : List Char := ['d','a','t','a','-','u','r','l','=','"']

/-- `data-url="(.+?)"` (cnn.py line 137). -/
def blogRE : RE :=
  RE.seq (RE.lit dataUrlLit) (RE.seq (RE.grp 1 (RE.plusLzy CharCls.dot)) (RE.lit ['"']))

/-- The literal head of the article regex, `video:`. -/
def videoLit : List Char := ['v','i','d','e','o',':']

/-- The part of the article regex after `\s*`: `'([^']+)'`. -/
def articleTail : RE :=
  RE.seq (RE.lit [squote])
         (RE.seq (RE.grp 1 (RE.plusGdy (CharCls.notCh squote))) (RE.lit [squote]))

/-- `video:\s*'([^']+)'` (cnn.py line 162). -/
def articleRE : RE :=
  RE.seq (RE.lit videoLit) (RE.seq (RE.star CharCls.wsp) articleTail)

/-- One entry of the `formats` list: the dictionary built at cnn.py lines
67-91, with `Option` fields for the keys that are only conditionally set. -/
structure FormatDict where
  format_id : String
  url : String
  width : Option Int
  height : Option Int
  tbr : Option Int
  vcodec : Option String
  ext : Option String
deriving DecidableEq

/-- One entry of the `thumbnails` list (cnn.py lines 96-100). -/
structure Thumbnail where
  height : Int
  width : Int
  url : Option String
deriving DecidableEq

/-- The metadata record returned by `CNNIE._real_extract` (lines 109-117). -/
structure InfoDict where
  id : String
  title : Option String
  formats : List FormatDict
  thumbnails : List Thumbnail
  description : Option String
  duration : Option Nat
  upload_date : Option String
deriving DecidableEq

/-- The redirect dictionary returned by the blog and article extractors
(`{'_type': 'url', 'url': ..., 'ie_key': ...}`). -/
structure Redirect where
  rtype : String
  url : String
  ie_key : String
deriving DecidableEq

/-- `'http://ht.cdn.turner.com/cnn/big%s' % (f.text.strip())` (line 66). -/
def cdnUrl (t : String) : String :=
  "http://ht.cdn.turner.com/cnn/big" ++ pyStrip t

/-- The per-file format dictionary construction of cnn.py lines 66-91, as a
function of the `bitrate` attribute `b` and the element text `t`: first
`rex.match` on the attribute, then `rex.search` on the text, then the
`ios_...` match on the attribute; `none` models a raised exception (`int` of
a missing group). -/
def build_format (b t : String) : Option FormatDict :=
  match pyMatch rexRE b.data with
  | some caps => do
      let w ← (groupStr caps 1).bind pyInt
      let h ← (groupStr caps 2).bind pyInt
      some { format_id := b, url := cdnUrl t, width := some w, height := some h,
             tbr := int_or_none (groupStr caps 3), vcodec := none, ext := none }
  | none =>
    match pySearch rexRE t.data with
    | some caps => do
        let w ← (groupStr caps 1).bind pyInt
        let h ← (groupStr caps 2).bind pyInt
        some { format_id := b, url := cdnUrl t, width := some w, height := some h,
               tbr := int_or_none (groupStr caps 3), vcodec := none, ext := none }
    | none =>
      match pyMatch iosRE b.data with
      | some caps =>
          match groupStr caps 1 with
          | some g =>
              if g = "audio" then
                some { format_id := b, url := cdnUrl t, width := none, height := none,
                       tbr := none, vcodec := some "none", ext := some "m4a" }
              else do
                let n ← pyInt g
                some { format_id := b, url := cdnUrl t, width := none, height := none,
                       tbr := some n, vcodec := none, ext := none }
          | none => none
      | none =>
          some { format_id := b, url := cdnUrl t, width := none, height := none,
                 tbr := none, vcodec := none, ext := none }

/-- The loop body of cnn.py lines 65-92 for one `file` element: reading
`f.text` (raising on `None`) and `f.attrib['bitrate']` (raising on a missing
key), then `build_format`. -/
def mkFdct (f : XmlElem) : Option FormatDict := do
  let t ← f.text
  let b ← attrLookup f "bitrate"
  build_format b t

/-- The `for f in info.findall('files/file')` loop (lines 65-92): one format
dictionary per element, aborting on the first raised exception. -/
def buildFormats : List XmlElem → Option (List FormatDict)
  | [] => some []
  | f :: fs => do
      let fd ← mkFdct f
      let rest ← buildFormats fs
      some (fd :: rest)

/-- Modelled from the spec: `self._sort_formats` (an externally supplied
format-preference sorter, not under `src/`, explicitly out of scope); the
spec constrains it to reorder the list only, so it is modelled as the
identity permutation and only multiset-level facts are claimed about the
final list. -/
def sort_formats (l : List FormatDict) : List FormatDict := l

/-- One thumbnail dictionary (lines 96-100): `int()` of the `height` and
`width` attributes (raising on a missing key or malformed number), the
element text as URL. -/
def mkThumb (t : XmlElem) : Option Thumbnail := do
  let hs ← attrLookup t "height"
  let h ← pyInt hs
  let ws ← attrLookup t "width"
  let w ← pyInt ws
  some { height := h, width := w, url := t.text }

/-- The thumbnail list comprehension over `info.findall('images/image')`. -/
def buildThumbnails : List XmlElem → Option (List Thumbnail)
  | [] => some []
  | t :: ts => do
      let th ← mkThumb t
      let rest ← buildThumbnails ts
      some (th :: rest)

/-- `re.match(self._VALID_URL, url)` followed by `mobj.group('path')` and
`mobj.group('title')` (lines 54-56). -/
def matchValidUrl (url : String) : Option (String × String) :=
  (pyMatch CNNIE_VALID_URL url.data).bind fun caps =>
    (capsLookup 1 caps).bind fun p =>
      (capsLookup 2 caps).map fun t => (String.mk p, String.mk t)

/-- `CNNIE._real_extract` (lines 53-117).  The XML document fetched from the
metadata endpoint is passed in as `info`; `none` models any raised
exception (unmatched URL, missing attribute or element, malformed number). -/
def CNNIE_real_extract (url : String) (info : XmlElem) : Option InfoDict := do
  let _pt ← matchValidUrl url
  let fmts ← buildFormats (findAll2 info "files" "file")
  let formats := sort_formats fmts
  let thumbnails ← buildThumbnails (findAll2 info "images" "image")
  let upload_date := (findChild info "metas").bind fun m => attrLookup m "version"
  let durationEl ← findChild info "length"
  let duration := parse_duration durationEl.text
  let idv ← attrLookup info "id"
  let headlineEl ← findChild info "headline"
  let descriptionEl ← findChild info "description"
  some { id := idv, title := headlineEl.text, formats := formats,
         thumbnails := thumbnails, description := descriptionEl.text,
         duration := duration, upload_date := upload_date }

/-- Modelled from the spec: the generic regex-based single-match extraction
helper (`InfoExtractor._html_search_regex`, not under `src/`): searches the
page for the pattern's leftmost match and returns its capture group, raising
(modelled as `none`) when the pattern is not found. -/
def html_search_regex (r : RE) (page : String) : Option String :=
  (pySearch r page.data).bind fun caps => groupStr caps 1

/-- Modelled from the spec: `CNNIE.ie_key()` (not under `src/`) tags a
redirect for resolution by the Primary (CNN) extractor. -/
def cnnIeKey : String := "CNN"

/-- `CNNBlogsIE._real_extract` (lines 135-142), as a function of the
already-fetched page body. -/
def CNNBlogsIE_real_extract (webpage : String) : Option Redirect :=
  (html_search_regex blogRE webpage).map fun u =>
    { rtype := "url", url := u, ie_key := cnnIeKey }

/-- `CNNArticleIE._real_extract` (lines 160-167), as a function of the
already-fetched page body. -/
def CNNArticleIE_real_extract (webpage : String) : Option Redirect :=
  (html_search_regex articleRE webpage).map fun u =>
    { rtype := "url", url := "http://cnn.com/video/?/video/" ++ u, ie_key := cnnIeKey }


/-- Concrete URL used to settle the id claim: its `path` capture is `a/b.cnn`. -/
def cexUrl : String := "http://cnn.com/video/?/a/b.cnn"

/-- A well-formed manifest whose root `id` attribute (`zzz`) differs from the
URL's `path` capture. -/
def cexManifest : XmlElem :=
  XmlElem.mk "video" [("id", "zzz")] none
    [XmlElem.mk "files" [] none
       [XmlElem.mk "file" [("bitrate", "640x360_800k")] (some "/a/b_640x360_800k.mp4") []],
     XmlElem.mk "images" [] none
       [XmlElem.mk "image" [("width", "120"), ("height", "90")] (some "http://img") []],
     XmlElem.mk "metas" [("version", "20130609")] none [],
     XmlElem.mk "length" [] (some "2:15") [],
     XmlElem.mk "headline" [] (some "T") [],
     XmlElem.mk "description" [] (some "D") []]

/-- The record extracted from `cexManifest`. -/
def cexInfoResult : InfoDict :=
  { id := "zzz", title := some "T",
    formats := [{ format_id := "640x360_800k",
                  url := "http://ht.cdn.turner.com/cnn/big/a/b_640x360_800k.mp4",
                  width := some 640, height := some 360, tbr := some 800,
                  vcodec := none, ext := none }],
    thumbnails := [{ height := 90, width := 120, url := some "http://img" }],
    description := some "D", duration := some 135, upload_date := some "20130609" }

/-- A `file` element with `bitrate="ios_audio"` whose text contains a
width-x-height pattern. -/
def cexFile : XmlElem :=
  XmlElem.mk "file" [("bitrate", "ios_audio")] (some "640x360.mp4") []

/-- The format dictionary the code builds for `cexFile`: the text tier wins,
so width/height are set and no audio-only overrides are applied. -/
def cexFd : FormatDict :=
  { format_id := "ios_audio", url := "http://ht.cdn.turner.com/cnn/big640x360.mp4",
    width := some 640, height := some 360, tbr := none, vcodec := none, ext := none }

/-- Two `file` elements used to instantiate the format-list claim. -/
def wit4f1 : XmlElem :=
  XmlElem.mk "file" [("bitrate", "ios_audio")] (some "/x_ios_audio.mp4") []

/-- Second `file` element (text padded with whitespace). -/
def wit4f2 : XmlElem :=
  XmlElem.mk "file" [("bitrate", "640x360")] (some " /y.mp4 ") []

/-- The format dictionaries built from `wit4f1` and `wit4f2`. -/
def wit4fmts : List FormatDict :=
  [{ format_id := "ios_audio", url := "http://ht.cdn.turner.com/cnn/big/x_ios_audio.mp4",
     width := none, height := none, tbr := none, vcodec := some "none", ext := some "m4a" },
   { format_id := "640x360", url := "http://ht.cdn.turner.com/cnn/big/y.mp4",
     width := some 640, height := some 360, tbr := none, vcodec := none, ext := none }]

/-- Two well-formed `image` elements. -/
def wit6i1 : XmlElem :=
  XmlElem.mk "image" [("width", "120"), ("height", "90")] (some "u1") []

/-- Second well-formed `image` element (no text). -/
def wit6i2 : XmlElem :=
  XmlElem.mk "image" [("width", "64"), ("height", "48")] none []

/-- An `image` element lacking the `width` attribute. -/
def wit6bad : XmlElem := XmlElem.mk "image" [("height", "3")] (some "u3") []

/-- The thumbnails built from `wit6i1` and `wit6i2`. -/
def wit6ths : List Thumbnail :=
  [{ height := 90, width := 120, url := some "u1" },
   { height := 48, width := 64, url := none }]

/-- `length` element of the metas-free manifest. -/
def le7 : XmlElem := XmlElem.mk "length" [] (some "95") []

/-- `headline` element of the metas-free manifest. -/
def he7 : XmlElem := XmlElem.mk "headline" [] (some "H") []

/-- `description` element of the metas-free manifest. -/
def de7 : XmlElem := XmlElem.mk "description" [] (some "Ds") []

/-- A well-formed manifest that has no `metas` element. -/
def wit7info : XmlElem :=
  XmlElem.mk "video" [("id", "a/b.cnn")] none
    [XmlElem.mk "files" [] none
       [XmlElem.mk "file" [("bitrate", "ios_400")] (some "/v.mp4") []],
     XmlElem.mk "images" [] none
       [XmlElem.mk "image" [("height", "10"), ("width", "20")] (some "u") []],
     le7, he7, de7]

/-- Formats of `wit7info`. -/
def wit7fmts : List FormatDict :=
  [{ format_id := "ios_400", url := "http://ht.cdn.turner.com/cnn/big/v.mp4",
     width := none, height := none, tbr := some 400, vcodec := none, ext := none }]

/-- Thumbnails of `wit7info`. -/
def wit7ths : List Thumbnail := [{ height := 10, width := 20, url := some "u" }]


theorem firstSome_some (r : Caps) (b : Option Caps) : firstSome (some r) b = some r := rfl

theorem firstSome_none (b : Option Caps) : firstSome none b = b := rfl

/-- A literal matches its own characters and leaves the rest. -/
theorem litMatch_self_append (xs ys : List Char) : litMatch xs (xs ++ ys) = some ys := by
  induction xs with
  | nil => rfl
  | cons x xs ih => simp [litMatch, ih]

/-- Behaviour of the lazy one-or-more on an input `xs ++ ys` whose block `xs`
lies in the class: if the continuation fails at every stopping point strictly
inside `xs` and succeeds right after `xs`, the match stops exactly there. -/
theorem plusLazy_split (c : CharCls) (k : Knt) (caps : Caps) (res : Caps) :
    ∀ (xs ys : List Char), xs ≠ [] → (∀ ch ∈ xs, clsMem c ch = true) →
    (∀ j, 1 ≤ j → j < xs.length → k (xs.drop j ++ ys) caps = none) →
    k ys caps = some res →
    plusLazy c (xs ++ ys) caps k = some res := by
  intro xs
  induction xs with
  | nil => simp
  | cons x xs ih =>
    intro ys _ hmem hmid hk
    have hmemx : clsMem c x = true := hmem x (by simp)
    cases xs with
    | nil => simp [plusLazy, hmemx, hk, firstSome]
    | cons y zs =>
      have h1 : k ((y :: zs) ++ ys) caps = none := hmid 1 (by omega) (by simp)
      have hrec : plusLazy c ((y :: zs) ++ ys) caps k = some res := by
        refine ih ys (by simp) (fun ch hch => hmem ch (List.mem_cons_of_mem _ hch)) ?_ hk
        intro j hj1 hj2
        have hj2' : j + 1 < (x :: y :: zs).length := by
          simp only [List.length_cons] at hj2 ⊢
          omega
        exact hmid (j + 1) (by omega) hj2'
      rw [List.cons_append]
      have hstep : plusLazy c (x :: ((y :: zs) ++ ys)) caps k
          = if clsMem c x then
              firstSome (k ((y :: zs) ++ ys) caps) (plusLazy c ((y :: zs) ++ ys) caps k)
            else none := rfl
      rw [hstep, hmemx, if_pos rfl, h1, firstSome_none]
      exact hrec

/-- Behaviour of the greedy one-or-more on an input `xs ++ ys` whose block
`xs` lies in the class and whose remainder `ys` starts outside it (or is
empty): the match consumes exactly `xs` and hands `ys` to the continuation. -/
theorem plusGreedy_split (c : CharCls) (k : Knt) (caps : Caps) (res : Caps) :
    ∀ (xs ys : List Char), xs ≠ [] → (∀ ch ∈ xs, clsMem c ch = true) →
    (∀ y yrest, ys = y :: yrest → clsMem c y = false) →
    k ys caps = some res →
    plusGreedy c (xs ++ ys) caps k = some res := by
  intro xs
  induction xs with
  | nil => simp
  | cons x xs ih =>
    intro ys _ hmem hys hk
    have hmemx : clsMem c x = true := hmem x (by simp)
    cases xs with
    | nil =>
      have hblock : plusGreedy c ys caps k = none := by
        cases ys with
        | nil => rfl
        | cons y yrest => simp [plusGreedy, hys y yrest rfl]
      simp [plusGreedy, hmemx, hblock, hk, firstSome]
    | cons y zs =>
      have hrec : plusGreedy c ((y :: zs) ++ ys) caps k = some res :=
        ih ys (by simp) (fun ch hch => hmem ch (List.mem_cons_of_mem _ hch)) hys hk
      rw [List.cons_append]
      have hstep : plusGreedy c (x :: ((y :: zs) ++ ys)) caps k
          = if clsMem c x then
              firstSome (plusGreedy c ((y :: zs) ++ ys) caps k) (k ((y :: zs) ++ ys) caps)
            else none := rfl
      rw [hstep, hmemx, if_pos rfl, hrec, firstSome_some]

/-- A match of a sequence headed by a literal fails when the literal does. -/
theorem matchRE_seq_lit_none (s : List Char) (r : RE) (cs : List Char) (caps : Caps)
    (k : Knt) (h : litMatch s cs = none) :
    matchRE (RE.seq (RE.lit s) r) cs caps k = none := by
  simp [matchRE, h]

/-- `re.search` skips start positions where no match begins. -/
theorem pySearch_skip (r : RE) : ∀ (pre rest : List Char),
    (∀ i, i < pre.length → pyMatch r (List.drop i (pre ++ rest)) = none) →
    pySearch r (pre ++ rest) = pySearch r rest := by
  intro pre
  induction pre with
  | nil => simp
  | cons p ps ih =>
    intro rest h
    have h0 : pyMatch r ((p :: ps) ++ rest) = none := by simpa using h 0 (by simp)
    rw [List.cons_append, pySearch, ← List.cons_append, h0, firstSome_none]
    exact ih rest (fun i hi => by simpa [List.drop] using h (i + 1) (by simpa using by omega))

/-- `re.search` fails when no start position yields a match. -/
theorem pySearch_none (r : RE) : ∀ (cs : List Char),
    (∀ i, i ≤ cs.length → pyMatch r (cs.drop i) = none) → pySearch r cs = none := by
  intro cs
  induction cs with
  | nil => intro h; simpa [pySearch] using h 0 (by simp)
  | cons c cs ih =>
    intro h
    have h0 : pyMatch r (c :: cs) = none := by simpa using h 0 (by simp)
    rw [pySearch, h0, firstSome_none]
    exact ih (fun i hi => by simpa [List.drop] using h (i + 1) (by simpa using by omega))

/-- C2 counterexample: a `file` element whose `bitrate` attribute is
`ios_audio` but whose text contains `640x360` gets width/height from the
text tier and no audio-only overrides, contrary to the claim that a
`bitrate` of `ios_audio` yields `vcodec='none'`, `ext='m4a'` and no
width/height. -/
theorem claim2_counterexample :
    mkFdct cexFile = some cexFd
    ∧ cexFd.vcodec ≠ some "none" ∧ cexFd.ext ≠ some "m4a" ∧ cexFd.width ≠ none := by
  decide

/-- C2 (amended): a `bitrate` attribute `640x360_800k` yields width=640,
height=360, tbr=800 whatever the element text; a `bitrate` of `ios_audio`
yields `vcodec='none'`, `ext='m4a'` and no width/height/tbr provided the
element's text contains no width-x-height pattern; a `bitrate` of `ios_400`
likewise yields tbr=400 and no width/height. -/
theorem claim2_amended :
    (∀ (f : XmlElem) (t : String), f.text = some t →
       attrLookup f "bitrate" = some "640x360_800k" →
       mkFdct f = some
         { format_id := "640x360_800k", url := cdnUrl t, width := some 640,
           height := some 360, tbr := some 800, vcodec := none, ext := none })
    ∧ (∀ (f : XmlElem) (t : String), f.text = some t →
       attrLookup f "bitrate" = some "ios_audio" →
       pySearch rexRE t.data = none →
       mkFdct f = some
         { format_id := "ios_audio", url := cdnUrl t, width := none,
           height := none, tbr := none, vcodec := some "none", ext := some "m4a" })
    ∧ (∀ (f : XmlElem) (t : String), f.text = some t →
       attrLookup f "bitrate" = some "ios_400" →
       pySearch rexRE t.data = none →
       mkFdct f = some
         { format_id := "ios_400", url := cdnUrl t, width := none,
           height := none, tbr := some 400, vcodec := none, ext := none }) := by
  refine ⟨fun f t ht hb => ?_, fun f t ht hb hs => ?_, fun f t ht hb hs => ?_⟩
  · simp only [mkFdct, Option.bind_eq_bind, ht, hb, Option.some_bind]
    rfl
  · simp only [mkFdct, Option.bind_eq_bind, ht, hb, Option.some_bind]
    unfold build_format
    rw [hs]
    rfl
  · simp only [mkFdct, Option.bind_eq_bind, ht, hb, Option.some_bind]
    unfold build_format
    rw [hs]
    rfl

/-- C2 witness: the three amended cases at concrete file elements. -/
theorem claim2_witness :
    mkFdct (XmlElem.mk "file" [("bitrate", "640x360_800k")] (some "/p.mp4") []) = some
      { format_id := "640x360_800k", url := cdnUrl "/p.mp4", width := some 640,
        height := some 360, tbr := some 800, vcodec := none, ext := none }
    ∧ mkFdct (XmlElem.mk "file" [("bitrate", "ios_audio")] (some "/a/b.mp4") []) = some
      { format_id := "ios_audio", url := cdnUrl "/a/b.mp4", width := none,
        height := none, tbr := none, vcodec := some "none", ext := some "m4a" }
    ∧ mkFdct (XmlElem.mk "file" [("bitrate", "ios_400")] (some "/a/b.mp4") []) = some
      { format_id := "ios_400", url := cdnUrl "/a/b.mp4", width := none,
        height := none, tbr := some 400, vcodec := none, ext := none } :=
  ⟨claim2_amended.1 _ _ (by decide) (by decide),
   claim2_amended.2.1 _ _ (by decide) (by decide) (by decide),
   claim2_amended.2.2 _ _ (by decide) (by decide) (by decide)⟩

/-- C3: the three-tier fallback of cnn.py lines 72-90: the width-x-height
pattern is tried with `re.match` on the `bitrate` attribute first (its
values win whatever the text); only if that fails is the same pattern tried
with `re.search` on the element text; only if that also fails is the
`ios_(audio|[0-9]+)$` pattern tried on the attribute. -/
theorem claim3_fallback_order :
    (∀ (b t : String) (caps : Caps) (w h : Int),
       pyMatch rexRE b.data = some caps →
       (groupStr caps 1).bind pyInt = some w →
       (groupStr caps 2).bind pyInt = some h →
       build_format b t = some
         { format_id := b, url := cdnUrl t, width := some w, height := some h,
           tbr := int_or_none (groupStr caps 3), vcodec := none, ext := none })
    ∧ (∀ (b t : String) (caps : Caps) (w h : Int),
       pyMatch rexRE b.data = none →
       pySearch rexRE t.data = some caps →
       (groupStr caps 1).bind pyInt = some w →
       (groupStr caps 2).bind pyInt = some h →
       build_format b t = some
         { format_id := b, url := cdnUrl t, width := some w, height := some h,
           tbr := int_or_none (groupStr caps 3), vcodec := none, ext := none })
    ∧ (∀ (b t : String) (caps : Caps),
       pyMatch rexRE b.data = none →
       pySearch rexRE t.data = none →
       pyMatch iosRE b.data = some caps →
       (groupStr caps 1 = some "audio" →
          build_format b t = some
            { format_id := b, url := cdnUrl t, width := none, height := none,
              tbr := none, vcodec := some "none", ext := some "m4a" })
       ∧ (∀ (g : String) (n : Int), groupStr caps 1 = some g → g ≠ "audio" →
            pyInt g = some n →
            build_format b t = some
              { format_id := b, url := cdnUrl t, width := none, height := none,
                tbr := some n, vcodec := none, ext := none })) := by
  refine ⟨fun b t caps w h hm hw hh => ?_, fun b t caps w h hm hs hw hh => ?_,
         fun b t caps hm hs hi => ⟨fun hg => ?_, fun g n hg hne hn => ?_⟩⟩
  · simp only [build_format, Option.bind_eq_bind, hm, hw, hh, Option.some_bind]
  · simp only [build_format, Option.bind_eq_bind, hm, hs, hw, hh, Option.some_bind]
  · simp only [build_format, hm, hs, hi, hg, if_true]
  · simp only [build_format, Option.bind_eq_bind, hm, hs, hi, hg]
    rw [if_neg hne]
    simp only [hn, Option.some_bind]

/-- C3 witness: the three tiers at concrete inputs (in the first, the text
also matches the pattern and the attribute's values win). -/
theorem claim3_witness :
    build_format "640x360_800k" "100x200_300k" = some
      { format_id := "640x360_800k", url := cdnUrl "100x200_300k", width := some 640,
        height := some 360,
        tbr := int_or_none (groupStr [(3, ['8', '0', '0']), (2, ['3', '6', '0']),
                                      (1, ['6', '4', '0'])] 3),
        vcodec := none, ext := none }
    ∧ build_format "vtx" "a640x360_800kz" = some
      { format_id := "vtx", url := cdnUrl "a640x360_800kz", width := some 640,
        height := some 360,
        tbr := int_or_none (groupStr [(3, ['8', '0', '0']), (2, ['3', '6', '0']),
                                      (1, ['6', '4', '0'])] 3),
        vcodec := none, ext := none }
    ∧ build_format "ios_audio" "/q.mp4" = some
      { format_id := "ios_audio", url := cdnUrl "/q.mp4", width := none, height := none,
        tbr := none, vcodec := some "none", ext := some "m4a" }
    ∧ build_format "ios_400" "/q.mp4" = some
      { format_id := "ios_400", url := cdnUrl "/q.mp4", width := none, height := none,
        tbr := some 400, vcodec := none, ext := none } :=
  ⟨claim3_fallback_order.1 "640x360_800k" "100x200_300k"
     [(3, ['8', '0', '0']), (2, ['3', '6', '0']), (1, ['6', '4', '0'])] 640 360
     (by decide) (by decide) (by decide),
   claim3_fallback_order.2.1 "vtx" "a640x360_800kz"
     [(3, ['8', '0', '0']), (2, ['3', '6', '0']), (1, ['6', '4', '0'])] 640 360
     (by decide) (by decide) (by decide) (by decide),
   (claim3_fallback_order.2.2 "ios_audio" "/q.mp4" [(1, ['a', 'u', 'd', 'i', 'o'])]
     (by decide) (by decide) (by decide)).1 (by decide),
   (claim3_fallback_order.2.2 "ios_400" "/q.mp4" [(1, ['4', '0', '0'])]
     (by decide) (by decide) (by decide)).2 "400" 400 (by decide) (by decide) (by decide)⟩

/-- C5: when a width/height/bitrate value is not determinable the optional
fields stay absent and no error is raised: a width-x-height match without
the `_<N>k` suffix leaves `tbr` absent, and when no pattern matches at all
every optional field is absent, the descriptor still being produced. -/
theorem claim5_absent_fields :
    (∀ (b t : String) (caps : Caps) (w h : Int),
       pyMatch rexRE b.data = some caps →
       capsLookup 3 caps = none →
       (groupStr caps 1).bind pyInt = some w →
       (groupStr caps 2).bind pyInt = some h →
       build_format b t = some
         { format_id := b, url := cdnUrl t, width := some w, height := some h,
           tbr := none, vcodec := none, ext := none })
    ∧ (∀ (b t : String),
       pyMatch rexRE b.data = none →
       pySearch rexRE t.data = none →
       pyMatch iosRE b.data = none →
       build_format b t = some
         { format_id := b, url := cdnUrl t, width := none, height := none,
           tbr := none, vcodec := none, ext := none }) := by
  refine ⟨fun b t caps w h hm h3 hw hh => ?_, fun b t h1 h2 h3 => ?_⟩
  · have htbr : int_or_none (groupStr caps 3) = none := by
      simp [int_or_none, groupStr, h3]
    simp only [build_format, Option.bind_eq_bind, hm, hw, hh, Option.some_bind, htbr]
  · simp only [build_format, h1, h2, h3]

/-- C5 witness: the two cases at concrete inputs (`640x360` without a
bitrate suffix; a bitrate attribute and text matching nothing). -/
theorem claim5_witness :
    build_format "640x360" "/p.mp4" = some
      { format_id := "640x360", url := cdnUrl "/p.mp4", width := some 640,
        height := some 360, tbr := none, vcodec := none, ext := none }
    ∧ build_format "foo" "bar" = some
      { format_id := "foo", url := cdnUrl "bar", width := none, height := none,
        tbr := none, vcodec := none, ext := none } :=
  ⟨claim5_absent_fields.1 "640x360" "/p.mp4" [(2, ['3', '6', '0']), (1, ['6', '4', '0'])]
     640 360 (by decide) (by decide) (by decide) (by decide),
   claim5_absent_fields.2 "foo" "bar" (by decide) (by decide) (by decide)⟩

/-- Every produced format dictionary carries the element's `bitrate`
attribute as `format_id` and the CDN-prefixed trimmed text as `url`,
whichever tier produced it. -/
theorem build_format_fid_url (b t : String) (fd : FormatDict)
    (h : build_format b t = some fd) : fd.format_id = b ∧ fd.url = cdnUrl t := by
  unfold build_format at h
  split at h
  next caps heq =>
    simp only [Option.bind_eq_bind, Option.bind_eq_some, Option.some.injEq] at h
    obtain ⟨w, hw, hgt, hh2, hfd⟩ := h
    exact ⟨by rw [← hfd], by rw [← hfd]⟩
  next heq =>
    split at h
    next caps heq2 =>
      simp only [Option.bind_eq_bind, Option.bind_eq_some, Option.some.injEq] at h
      obtain ⟨w, hw, hgt, hh2, hfd⟩ := h
      exact ⟨by rw [← hfd], by rw [← hfd]⟩
    next heq2 =>
      split at h
      next caps heq3 =>
        split at h
        next g heq4 =>
          split at h
          next hga =>
            simp only [Option.some.injEq] at h
            exact ⟨by rw [← h], by rw [← h]⟩
          next hga =>
            simp only [Option.bind_eq_bind, Option.bind_eq_some, Option.some.injEq] at h
            obtain ⟨n, hn, hfd⟩ := h
            exact ⟨by rw [← hfd], by rw [← hfd]⟩
        next heq4 => cases h
      next heq3 =>
        simp only [Option.some.injEq] at h
        exact ⟨by rw [← h], by rw [← h]⟩

/-- C4: the `for` loop over `files/file` yields exactly one format
dictionary per element (the list lengths agree), the `format_id`s are
exactly the `bitrate` attribute values in order (hence equal as multisets),
and each `url` is the fixed CDN prefix followed by the trimmed element
text.  The spec-modelled sorter `sort_formats` only permutes the list, so
the multiset statements carry over to the returned record. -/
theorem claim4_format_list :
    ∀ (files : List XmlElem) (fmts : List FormatDict),
      buildFormats files = some fmts →
      fmts.length = files.length
      ∧ files.map (fun f => attrLookup f "bitrate") = fmts.map (fun fd => some fd.format_id)
      ∧ List.Forall₂ (fun f fd => ∃ t, f.text = some t
          ∧ fd.url = "http://ht.cdn.turner.com/cnn/big" ++ pyStrip t) files fmts := by
  intro files
  induction files with
  | nil =>
      intro fmts h
      simp only [buildFormats, Option.some.injEq] at h
      rw [← h]
      exact ⟨rfl, rfl, List.Forall₂.nil⟩
  | cons f fs ih =>
      intro fmts h
      simp only [buildFormats, Option.bind_eq_bind, Option.bind_eq_some,
        Option.some.injEq] at h
      obtain ⟨fd, hfd, rest, hrest, hfmts⟩ := h
      subst hfmts
      simp only [mkFdct, Option.bind_eq_bind, Option.bind_eq_some] at hfd
      obtain ⟨t, ht, b, hb, hbf⟩ := hfd
      have hfu := build_format_fid_url b t fd hbf
      obtain ⟨ih1, ih2, ih3⟩ := ih rest hrest
      refine ⟨by simp [ih1], ?_, ?_⟩
      · simp only [List.map_cons, hb, hfu.1, ih2]
      · exact List.Forall₂.cons ⟨t, ht, by rw [hfu.2]; rfl⟩ ih3

/-- C4 witness: the format-list facts at a concrete two-element file list. -/
theorem claim4_witness :
    wit4fmts.length = [wit4f1, wit4f2].length
    ∧ [wit4f1, wit4f2].map (fun f => attrLookup f "bitrate")
        = wit4fmts.map (fun fd => some fd.format_id)
    ∧ List.Forall₂ (fun f fd => ∃ t, f.text = some t
        ∧ fd.url = "http://ht.cdn.turner.com/cnn/big" ++ pyStrip t) [wit4f1, wit4f2] wit4fmts :=
  claim4_format_list [wit4f1, wit4f2] wit4fmts (by decide)

/-- A thumbnail dictionary records the parsed `height`/`width` attributes
and the element text. -/
theorem mkThumb_some (t : XmlElem) (th : Thumbnail) (h : mkThumb t = some th) :
    (∃ hs, attrLookup t "height" = some hs ∧ pyInt hs = some th.height)
    ∧ (∃ ws, attrLookup t "width" = some ws ∧ pyInt ws = some th.width)
    ∧ th.url = t.text := by
  simp only [mkThumb, Option.bind_eq_bind, Option.bind_eq_some, Option.some.injEq] at h
  obtain ⟨hs, hhs, hv, hhv, ws, hws, wv, hwv, hth⟩ := h
  exact ⟨⟨hs, hhs, by rw [← hth]; exact hhv⟩, ⟨ws, hws, by rw [← hth]; exact hwv⟩,
    by rw [← hth]⟩

/-- `int(t.attrib[...])` raises when the attribute is missing, so the
thumbnail construction fails on such an element. -/
theorem mkThumb_none (t : XmlElem)
    (h : attrLookup t "width" = none ∨ attrLookup t "height" = none) :
    mkThumb t = none := by
  rcases h with hw | hh
  · cases hh' : attrLookup t "height" with
    | none => simp [mkThumb, hh']
    | some hs =>
        cases hp : pyInt hs with
        | none => simp [mkThumb, hh', hp]
        | some n => simp [mkThumb, hh', hp, hw]
  · simp [mkThumb, hh]

/-- C6: the thumbnail list has exactly one entry per `images/image` element,
with `height`/`width` the parsed attribute values and `url` the element
text; and if any image element lacks a `width` or `height` attribute the
extraction fails instead of skipping the element. -/
theorem claim6_thumbnails :
    (∀ (imgs : List XmlElem) (ths : List Thumbnail),
       buildThumbnails imgs = some ths →
       ths.length = imgs.length
       ∧ List.Forall₂ (fun t th =>
           (∃ hs, attrLookup t "height" = some hs ∧ pyInt hs = some th.height)
           ∧ (∃ ws, attrLookup t "width" = some ws ∧ pyInt ws = some th.width)
           ∧ th.url = t.text) imgs ths)
    ∧ (∀ (imgs : List XmlElem) (t : XmlElem), t ∈ imgs →
       (attrLookup t "width" = none ∨ attrLookup t "height" = none) →
       buildThumbnails imgs = none) := by
  constructor
  · intro imgs
    induction imgs with
    | nil =>
        intro ths h
        simp only [buildThumbnails, Option.some.injEq] at h
        rw [← h]
        exact ⟨rfl, List.Forall₂.nil⟩
    | cons x xs ih =>
        intro ths h
        simp only [buildThumbnails, Option.bind_eq_bind, Option.bind_eq_some,
          Option.some.injEq] at h
        obtain ⟨th, hth, rest, hrest, hths⟩ := h
        subst hths
        obtain ⟨ih1, ih2⟩ := ih rest hrest
        exact ⟨by simp [ih1], List.Forall₂.cons (mkThumb_some x th hth) ih2⟩
  · intro imgs
    induction imgs with
    | nil => intro t ht; cases ht
    | cons x xs ih =>
        intro t ht hbad
        rcases List.mem_cons.mp ht with rfl | hmem
        · simp [buildThumbnails, Option.bind_eq_bind, mkThumb_none t hbad]
        · have hxs := ih t hmem hbad
          cases hmx : mkThumb x <;>
            simp [buildThumbnails, Option.bind_eq_bind, hmx, hxs]

/-- C6 witness: a well-formed two-image list and a list containing an image
without a `width` attribute. -/
theorem claim6_witness :
    (wit6ths.length = [wit6i1, wit6i2].length
     ∧ List.Forall₂ (fun t th =>
         (∃ hs, attrLookup t "height" = some hs ∧ pyInt hs = some th.height)
         ∧ (∃ ws, attrLookup t "width" = some ws ∧ pyInt ws = some th.width)
         ∧ th.url = t.text) [wit6i1, wit6i2] wit6ths)
    ∧ buildThumbnails [wit6i1, wit6bad] = none :=
  ⟨claim6_thumbnails.1 [wit6i1, wit6i2] wit6ths (by decide),
   claim6_thumbnails.2 [wit6i1, wit6bad] wit6bad
     (List.mem_cons_of_mem _ (List.mem_cons_self _ _)) (Or.inl (by decide))⟩

/-- C7: whenever extraction succeeds, `upload_date` is exactly the
`version` attribute of the `metas` element looked up with `.get` (absent
when the element or attribute is absent); and a manifest with no `metas`
element still extracts successfully, with `upload_date` absent. -/
theorem claim7_upload_date :
    (∀ (url : String) (info : XmlElem) (r : InfoDict),
       CNNIE_real_extract url info = some r →
       r.upload_date = (findChild info "metas").bind (fun m => attrLookup m "version"))
    ∧ (∀ (url : String) (info : XmlElem) (pr : String × String) (fmts : List FormatDict)
         (ths : List Thumbnail) (le he de : XmlElem) (idv : String),
       matchValidUrl url = some pr →
       buildFormats (findAll2 info "files" "file") = some fmts →
       buildThumbnails (findAll2 info "images" "image") = some ths →
       findChild info "length" = some le →
       attrLookup info "id" = some idv →
       findChild info "headline" = some he →
       findChild info "description" = some de →
       findChild info "metas" = none →
       CNNIE_real_extract url info = some
         { id := idv, title := he.text, formats := sort_formats fmts,
           thumbnails := ths, description := de.text,
           duration := parse_duration le.text, upload_date := none }) := by
  constructor
  · intro url info r h
    simp only [CNNIE_real_extract, Option.bind_eq_bind, Option.bind_eq_some,
      Option.some.injEq] at h
    obtain ⟨pr, hpr, fmts, hfmts, ths, hths, le, hle, idv, hid, he, hhe, de, hde, hr⟩ := h
    rw [← hr]
  · intro url info pr fmts ths le he de idv h1 h2 h3 h4 h5 h6 h7 h8
    simp only [CNNIE_real_extract, Option.bind_eq_bind, h1, h2, h3, h4, h5, h6, h7, h8,
      Option.some_bind, Option.none_bind]

/-- C7 witness: a concrete metas-free manifest extracts successfully with
`upload_date` absent. -/
theorem claim7_witness :
    CNNIE_real_extract cexUrl wit7info = some
      { id := "a/b.cnn", title := he7.text, formats := sort_formats wit7fmts,
        thumbnails := wit7ths, description := de7.text,
        duration := parse_duration le7.text, upload_date := none } :=
  claim7_upload_date.2 cexUrl wit7info ("a/b.cnn", "b") wit7fmts wit7ths le7 he7 de7
    "a/b.cnn" (by decide) (by decide) (by decide) (by rfl) (by decide) (by rfl)
    (by rfl) (by rfl)

/-- C1 counterexample: a URL whose `path` capture is `a/b.cnn` together
with a well-formed manifest whose root `id` attribute is `zzz`: extraction
succeeds and the returned id is `zzz`, the manifest's value, not the URL
capture. -/
theorem claim1_counterexample :
    matchValidUrl cexUrl = some ("a/b.cnn", "b")
    ∧ (CNNIE_real_extract cexUrl cexManifest).map InfoDict.id = some "zzz"
    ∧ ("zzz" : String) ≠ "a/b.cnn" := by
  decide

/-- C1 (amended): for every URL and manifest for which extraction succeeds,
the id field of the returned metadata record equals the manifest root
element's `id` attribute (which CNN's endpoint echoes as
`<path>/<title>.cnn`); the code does not derive the id from the URL
capture. -/
theorem claim1_amended :
    ∀ (url : String) (info : XmlElem) (r : InfoDict),
      CNNIE_real_extract url info = some r → attrLookup info "id" = some r.id := by
  intro url info r h
  simp only [CNNIE_real_extract, Option.bind_eq_bind, Option.bind_eq_some,
    Option.some.injEq] at h
  obtain ⟨pr, hpr, fmts, hfmts, ths, hths, le, hle, idv, hid, he, hhe, de, hde, hr⟩ := h
  rw [← hr]
  exact hid

/-- C1 witness: the amended statement at the concrete counterexample
manifest. -/
theorem claim1_witness :
    attrLookup cexManifest "id" = some cexInfoResult.id :=
  claim1_amended cexUrl cexManifest cexInfoResult (by decide)

/-- `re.search` succeeds at the first position when an anchored match does. -/
theorem pySearch_of_match (r : RE) (cs : List Char) (res : Caps)
    (h : pyMatch r cs = some res) (hne : cs ≠ []) : pySearch r cs = some res := by
  cases cs with
  | nil => exact absurd rfl hne
  | cons c cs' => simp [pySearch, h, firstSome]

/-- The anchored blog-pattern match on `data-url="` followed by a
quote-free, newline-free `u` and a closing quote captures exactly `u`. -/
theorem blog_match_at (u post : List Char) (hu0 : u ≠ [])
    (hu : ∀ ch ∈ u, ch ≠ '"' ∧ ch ≠ '\n') :
    pyMatch blogRE (dataUrlLit ++ (u ++ '"' :: post)) = some [(1, u)] := by
  unfold pyMatch blogRE
  simp only [matchRE, litMatch_self_append]
  refine plusLazy_split CharCls.dot _ _ _ u ('"' :: post) hu0 ?_ ?_ ?_
  · intro ch hch
    simp [clsMem, (hu ch hch).2]
  · intro j hj1 hj2
    rw [List.drop_eq_getElem_cons hj2, List.cons_append]
    have hne : ('"' : Char) ≠ u[j] :=
      fun he => (hu u[j] (List.getElem_mem hj2)).1 he.symm
    simp [litMatch, hne]
  · have hlen : (u ++ '"' :: post).length - ('"' :: post).length = u.length := by
      simp [List.length_append]
    show some [(1, (u ++ '"' :: post).take ((u ++ '"' :: post).length - ('"' :: post).length))]
        = some [(1, u)]
    rw [hlen, List.take_left]

theorem mk_data (l : List Char) : (String.mk l).data = l := rfl

/-- C8: on every page body containing a `data-url="U"` attribute (with no
earlier occurrence of `data-url="`), the blog extractor returns a redirect
dictionary of type `url` whose target is exactly the captured `U`, tagged
with the CNN extractor key; and on a page with no `data-url="` at all the
extraction fails (pattern not found). -/
theorem claim8_blog_redirect :
    (∀ (pre u post : List Char), u ≠ [] →
       (∀ ch ∈ u, ch ≠ '"' ∧ ch ≠ '\n') →
       (∀ i, i < pre.length →
          litMatch dataUrlLit ((pre ++ (dataUrlLit ++ (u ++ '"' :: post))).drop i) = none) →
       CNNBlogsIE_real_extract (String.mk (pre ++ (dataUrlLit ++ (u ++ '"' :: post))))
         = some { rtype := "url", url := String.mk u, ie_key := cnnIeKey })
    ∧ (∀ (page : List Char),
       (∀ i, i ≤ page.length → litMatch dataUrlLit (page.drop i) = none) →
       CNNBlogsIE_real_extract (String.mk page) = none) := by
  constructor
  · intro pre u post hu0 hu hpre
    unfold CNNBlogsIE_real_extract html_search_regex
    simp only [mk_data]
    have hskip : pySearch blogRE (pre ++ (dataUrlLit ++ (u ++ '"' :: post)))
        = pySearch blogRE (dataUrlLit ++ (u ++ '"' :: post)) := by
      apply pySearch_skip
      intro i hi
      exact matchRE_seq_lit_none _ _ _ _ _ (hpre i hi)
    rw [hskip,
      pySearch_of_match blogRE _ _ (blog_match_at u post hu0 hu) (by simp [dataUrlLit])]
    rfl
  · intro page hnone
    unfold CNNBlogsIE_real_extract html_search_regex
    simp only [mk_data]
    have hs : pySearch blogRE page = none := by
      apply pySearch_none
      intro i hi
      exact matchRE_seq_lit_none _ _ _ _ _ (hnone i hi)
    rw [hs]
    rfl

/-- C8 witness: a concrete page containing `data-url="http://x/video/a/b.cnn"`
and a concrete page with no `data-url` attribute. -/
theorem claim8_witness :
    CNNBlogsIE_real_extract (String.mk ("<div ".data
        ++ (dataUrlLit ++ ("http://x/video/a/b.cnn".data ++ '"' :: ">".data))))
      = some { rtype := "url", url := String.mk "http://x/video/a/b.cnn".data,
               ie_key := cnnIeKey }
    ∧ CNNBlogsIE_real_extract (String.mk "<div></div>".data) = none :=
  ⟨claim8_blog_redirect.1 "<div ".data "http://x/video/a/b.cnn".data ">".data
     (by decide) (by decide) (by decide),
   claim8_blog_redirect.2 "<div></div>".data (by decide)⟩

theorem matchRE_seq (a b : RE) (cs : List Char) (caps : Caps) (k : Knt) :
    matchRE (RE.seq a b) cs caps k
      = matchRE a cs caps (fun cs2 caps2 => matchRE b cs2 caps2 k) := rfl

theorem matchRE_alt (a b : RE) (cs : List Char) (caps : Caps) (k : Knt) :
    matchRE (RE.alt a b) cs caps k
      = firstSome (matchRE a cs caps k) (matchRE b cs caps k) := rfl

theorem matchRE_opt (r : RE) (cs : List Char) (caps : Caps) (k : Knt) :
    matchRE (RE.opt r) cs caps k = firstSome (matchRE r cs caps k) (k cs caps) := rfl

theorem matchRE_grp (n : Nat) (r : RE) (cs : List Char) (caps : Caps) (k : Knt) :
    matchRE (RE.grp n r) cs caps k
      = matchRE r cs caps
          (fun cs2 caps2 => k cs2 (capsInsert n (cs.take (cs.length - cs2.length)) caps2)) :=
  rfl

theorem matchRE_plusLzy (c : CharCls) (cs : List Char) (caps : Caps) (k : Knt) :
    matchRE (RE.plusLzy c) cs caps k = plusLazy c cs caps k := rfl

theorem matchRE_plusGdy (c : CharCls) (cs : List Char) (caps : Caps) (k : Knt) :
    matchRE (RE.plusGdy c) cs caps k = plusGreedy c cs caps k := rfl

theorem matchRE_star (c : CharCls) (cs : List Char) (caps : Caps) (k : Knt) :
    matchRE (RE.star c) cs caps k = starGreedy c cs caps k := rfl

theorem matchRE_look_cons (ch c : Char) (cs : List Char) (caps : Caps) (k : Knt) :
    matchRE (RE.look ch) (c :: cs) caps k = if c = ch then k (c :: cs) caps else none := rfl

theorem matchRE_lit_append (s rest : List Char) (caps : Caps) (k : Knt) :
    matchRE (RE.lit s) (s ++ rest) caps k = k rest caps := by
  simp [matchRE, litMatch_self_append]

theorem matchRE_lit_cons (ch : Char) (rest : List Char) (caps : Caps) (k : Knt) :
    matchRE (RE.lit [ch]) (ch :: rest) caps k = k rest caps := by
  simp [matchRE, litMatch]

theorem starGreedy_cons_mem (c : CharCls) (ch : Char) (cs : List Char) (caps : Caps)
    (k : Knt) (h : clsMem c ch = true) :
    starGreedy c (ch :: cs) caps k
      = firstSome (starGreedy c cs caps k) (k (ch :: cs) caps) := by
  simp [starGreedy, h]

theorem starGreedy_cons_notmem (c : CharCls) (ch : Char) (cs : List Char) (caps : Caps)
    (k : Knt) (h : clsMem c ch = false) :
    starGreedy c (ch :: cs) caps k = k (ch :: cs) caps := by
  simp [starGreedy, h]

/-- The quoted-literal part of the article regex captures the maximal
quote-free block as group 1. -/
theorem articleTail_at (p post : List Char) (hp0 : p ≠ [])
    (hp : ∀ ch ∈ p, ch ≠ squote) (caps : Caps) :
    matchRE articleTail (squote :: (p ++ squote :: post)) caps (fun _ caps2 => some caps2)
      = some ((1, p) :: caps) := by
  unfold articleTail
  rw [matchRE_seq, matchRE_lit_cons]
  show matchRE (RE.seq (RE.grp 1 (RE.plusGdy (CharCls.notCh squote))) (RE.lit [squote]))
      (p ++ squote :: post) caps (fun _ caps2 => some caps2) = some ((1, p) :: caps)
  rw [matchRE_seq, matchRE_grp, matchRE_plusGdy]
  refine plusGreedy_split _ _ _ _ p (squote :: post) hp0 ?_ ?_ ?_
  · intro ch hch
    simp [clsMem, hp ch hch]
  · intro y yr hy
    cases hy
    simp [clsMem]
  · have hlen : (p ++ squote :: post).length - (squote :: post).length = p.length := by
      simp [List.length_append]
    show some (capsInsert 1
        ((p ++ squote :: post).take ((p ++ squote :: post).length - (squote :: post).length))
        caps) = some ((1, p) :: caps)
    rw [hlen, List.take_left]
    rfl

/-- The anchored article-pattern match on `video: 'P'` (one space) captures
exactly `P`. -/
theorem article_match_at (p post : List Char) (hp0 : p ≠ [])
    (hp : ∀ ch ∈ p, ch ≠ squote) :
    pyMatch articleRE (videoLit ++ (' ' :: squote :: (p ++ squote :: post)))
      = some [(1, p)] := by
  unfold pyMatch articleRE
  rw [matchRE_seq, matchRE_lit_append]
  show matchRE (RE.seq (RE.star CharCls.wsp) articleTail)
      (' ' :: squote :: (p ++ squote :: post)) [] (fun _ caps => some caps) = some [(1, p)]
  rw [matchRE_seq, matchRE_star, starGreedy_cons_mem _ _ _ _ _ (by decide),
    starGreedy_cons_notmem _ _ _ _ _ (by decide)]
  show firstSome
      (matchRE articleTail (squote :: (p ++ squote :: post)) [] (fun _ caps => some caps))
      (matchRE articleTail (' ' :: squote :: (p ++ squote :: post)) []
        (fun _ caps => some caps)) = some [(1, p)]
  rw [articleTail_at p post hp0 hp, firstSome_some]

/-- C9: on every page body containing a script literal `video: 'P'` (with no
earlier occurrence of `video:`), the article extractor returns a redirect
dictionary of type `url` whose target is the fixed prefix
`http://cnn.com/video/?/video/` followed by the captured `P`, tagged with
the CNN extractor key. -/
theorem claim9_article_redirect :
    ∀ (pre p post : List Char), p ≠ [] →
      (∀ ch ∈ p, ch ≠ squote) →
      (∀ i, i < pre.length →
         litMatch videoLit
           ((pre ++ (videoLit ++ (' ' :: squote :: (p ++ squote :: post)))).drop i) = none) →
      CNNArticleIE_real_extract
          (String.mk (pre ++ (videoLit ++ (' ' :: squote :: (p ++ squote :: post)))))
        = some { rtype := "url", url := "http://cnn.com/video/?/video/" ++ String.mk p,
                 ie_key := cnnIeKey } := by
  intro pre p post hp0 hp hpre
  unfold CNNArticleIE_real_extract html_search_regex
  simp only [mk_data]
  have hskip := pySearch_skip articleRE pre
    (videoLit ++ (' ' :: squote :: (p ++ squote :: post)))
    (fun i hi => matchRE_seq_lit_none _ _ _ _ _ (hpre i hi))
  rw [hskip,
    pySearch_of_match articleRE _ _ (article_match_at p post hp0 hp) (by simp [videoLit])]
  rfl

/-- C9 witness: the repository's fixture literal
`video: 'politics/2015/03/27/pkg.ktvk'` yields the redirect URL
`http://cnn.com/video/?/video/politics/2015/03/27/pkg.ktvk`. -/
theorem claim9_witness :
    CNNArticleIE_real_extract (String.mk ("<script>".data
        ++ (videoLit ++ (' ' :: squote ::
             ("politics/2015/03/27/pkg.ktvk".data ++ squote :: "</script>".data)))))
      = some { rtype := "url",
               url := "http://cnn.com/video/?/video/politics/2015/03/27/pkg.ktvk",
               ie_key := cnnIeKey } :=
  claim9_article_redirect "<script>".data "politics/2015/03/27/pkg.ktvk".data
    "</script>".data (by decide) (by decide) (by decide)

/-- The fixed part of the URL pattern deterministically consumes
`http://cnn.com/video/?/`. -/
theorem cnnPre_consume (rest : List Char) (caps : Caps) (k : Knt) :
    matchRE cnnPreRE (cnnPre ++ rest) caps k = k rest caps := rfl

/-- The anchored `_VALID_URL` match on
`http://cnn.com/video/?/<p>/<ti>&<q>`, where `p` is slash-free and `ti`
contains no slash, dot or ampersand: the lazy `path` group stops at the
lookahead `(?=&)`, capturing `p/<ti>` and title `ti`, and the query tail is
not part of the capture. -/
theorem cnn_match_at (p ti q : List Char)
    (hp0 : p ≠ []) (hp : ∀ ch ∈ p, ch ≠ '/' ∧ ch ≠ '\n')
    (ht0 : ti ≠ []) (ht : ∀ ch ∈ ti, ch ≠ '/' ∧ ch ≠ '.' ∧ ch ≠ '&') :
    pyMatch CNNIE_VALID_URL (cnnPre ++ (p ++ '/' :: (ti ++ '&' :: q)))
      = some [(1, p ++ '/' :: ti), (2, ti)] := by
  unfold pyMatch CNNIE_VALID_URL
  rw [matchRE_seq, cnnPre_consume]
  unfold cnnPathRE
  rw [matchRE_grp, matchRE_seq, matchRE_plusLzy]
  refine plusLazy_split _ _ _ _ p ('/' :: (ti ++ '&' :: q)) hp0 ?_ ?_ ?_
  · intro ch hch
    simp [clsMem, (hp ch hch).2]
  · intro j hj1 hj2
    rw [List.drop_eq_getElem_cons hj2, List.cons_append]
    have hne : ('/' : Char) ≠ p[j] := fun he => (hp p[j] (List.getElem_mem hj2)).1 he.symm
    exact matchRE_seq_lit_none _ _ _ _ _ (by simp [litMatch, hne])
  · beta_reduce
    rw [matchRE_seq, matchRE_lit_cons]
    rw [matchRE_seq]
    unfold cnnTitleRE
    rw [matchRE_grp, matchRE_plusLzy]
    refine plusLazy_split _ _ _ _ ti ('&' :: q) ht0 ?_ ?_ ?_
    · intro ch hch
      simp [clsMem, (ht ch hch).1]
    · intro j hj1 hj2
      rw [List.drop_eq_getElem_cons hj2, List.cons_append]
      unfold cnnSuffixRE
      rw [matchRE_alt]
      have hd : ('.' : Char) ≠ ti[j] :=
        fun he => (ht ti[j] (List.getElem_mem hj2)).2.1 he.symm
      have ha : ti[j] ≠ '&' := (ht ti[j] (List.getElem_mem hj2)).2.2
      have hlm : litMatch ['.'] (ti[j] :: (List.drop (j + 1) ti ++ '&' :: q)) = none := by
        simp [litMatch, hd]
      rw [matchRE_seq_lit_none _ _ _ _ _ hlm, firstSome_none, matchRE_look_cons, if_neg ha]
    · beta_reduce
      have hlen1 : (ti ++ '&' :: q).length - ('&' :: q).length = ti.length := by
        simp [List.length_append]
      rw [hlen1, List.take_left]
      unfold cnnSuffixRE
      rw [matchRE_alt]
      have hdot : litMatch ['.'] ('&' :: q) = none := rfl
      rw [matchRE_seq_lit_none _ _ _ _ _ hdot, firstSome_none, matchRE_look_cons,
        if_pos rfl]
      have hshape : p ++ '/' :: (ti ++ '&' :: q) = (p ++ '/' :: ti) ++ '&' :: q := by
        simp
      rw [hshape]
      have hlen2 : ((p ++ '/' :: ti) ++ '&' :: q).length - ('&' :: q).length
          = (p ++ '/' :: ti).length := by
        simp [List.length_append]
        omega
      rw [hlen2, List.take_left]
      rfl

/-- C10: the Primary Extractor's URL pattern also accepts URLs whose
path/title capture is not terminated by a `.cnn`/`.hln`/`.ktvk` suffix but
is immediately followed by `&`: for every slash-free `p`, every title `ti`
free of slash/dot/ampersand and every query tail `q`, the URL
`http://cnn.com/video/?/<p>/<ti>&<q>` matches with captured path `<p>/<ti>`
(ending just before the `&`, the query tail excluded) and title `<ti>`. -/
theorem claim10_query_tail :
    ∀ (p ti q : List Char),
      p ≠ [] → (∀ ch ∈ p, ch ≠ '/' ∧ ch ≠ '\n') →
      ti ≠ [] → (∀ ch ∈ ti, ch ≠ '/' ∧ ch ≠ '.' ∧ ch ≠ '&') →
      matchValidUrl (String.mk (cnnPre ++ (p ++ '/' :: (ti ++ '&' :: q))))
        = some (String.mk (p ++ '/' :: ti), String.mk ti) := by
  intro p ti q hp0 hp ht0 ht
  unfold matchValidUrl
  simp only [mk_data]
  rw [cnn_match_at p ti q hp0 hp ht0 ht]
  rfl

/-- C10 witness: `http://cnn.com/video/?/us/speech&utm_source=feed` matches
with path `us/speech` and title `speech`, the query tail excluded. -/
theorem claim10_witness :
    matchValidUrl (String.mk (cnnPre
        ++ ("us".data ++ '/' :: ("speech".data ++ '&' :: "utm_source=feed".data))))
      = some (String.mk ("us".data ++ '/' :: "speech".data), String.mk "speech".data) :=
  claim10_query_tail "us".data "speech".data "utm_source=feed".data
    (by decide) (by decide) (by decide) (by decide)
